import Mathlib

/-!
# Verification of the whisper-keyboard dictation core

Shallow embedding of the trigger / recording / pause state machine of
`wkey/wkey.py`, of the silence heuristic, of the hotkey configuration
logic, of the LLM correction closure of `wkey/llm_correction.py`, and of
the PID-file single-instance protocol of `wkey/single_instance.py`,
together with proofs of the specified properties.

Python sets of key names are modelled as `List String` with set
semantics (membership-insensitive to duplicates); raw 16-bit PCM audio
is modelled as lists of decoded samples (`List Int`, one entry per
16-bit sample, so a byte length of `2 * length`).
-/

namespace Wkey

/-- The mouse buttons accepted by `_parse_mouse_button` (middle, x1, x2). -/
inductive MouseButton
  | middle
  | x1
  | x2
deriving DecidableEq, Repr

/-- One captured PCM chunk, as delivered by the audio callback
(decoded 16-bit samples). -/
abbrev Chunk := List Int

/-- The module-level mutable state of `wkey/wkey.py` that the trigger,
recording and pause logic reads and writes. `workers` records, in
order, the audio buffers handed to spawned transcription workers
(one entry per `threading.Thread(target=worker, ...)`), and
`streamOpen` models `audio_stream is not None`. -/
structure SvcState where
  keyboardEnabled : Bool
  mouseEnabled : Bool
  hotkeyParts : List String
  pressedKeys : List String
  mouseButton : Option MouseButton
  mousePressed : Bool
  paused : Bool
  recording : Bool
  audioData : List Chunk
  streamOpen : Bool
  continuousListen : Bool
  workers : List (List Chunk)
deriving Repr

/-- `_hotkey_active`: keyboard enabled, configured parts non-empty and a
subset of the pressed keys. -/
def hotkeyActive (s : SvcState) : Bool :=
  s.keyboardEnabled && !s.hotkeyParts.isEmpty
    && s.hotkeyParts.all (fun p => s.pressedKeys.contains p)

/-- `_mouse_active`: mouse enabled, a button configured, and pressed. -/
def mouseActive (s : SvcState) : Bool :=
  s.mouseEnabled && s.mouseButton.isSome && s.mousePressed

/-- `_triggers_active`: combination of the two trigger conditions
according to the enable flags. -/
def triggersActive (s : SvcState) : Bool :=
  if s.keyboardEnabled && s.mouseEnabled then hotkeyActive s || mouseActive s
  else if s.keyboardEnabled then hotkeyActive s
  else if s.mouseEnabled then mouseActive s
  else false

/-- Spec-side rendering of "keyboard combo satisfied": the configured
key-part set is non-empty and is a subset of the currently-pressed keys
(no enable flag). Used only to compare `_triggers_active` against the
specification text. -/
def specKeyboardComboSat (s : SvcState) : Bool :=
  !s.hotkeyParts.isEmpty && s.hotkeyParts.all (fun p => s.pressedKeys.contains p)

/-- Spec-side rendering of "mouse satisfied": a mouse button is
configured and currently pressed (no enable flag). -/
def specMouseSat (s : SvcState) : Bool :=
  s.mouseButton.isSome && s.mousePressed

/-- Spec-side rendering of the §4.1 truth table for the combined
trigger predicate. -/
def specCombinedTrigger (s : SvcState) : Bool :=
  if s.keyboardEnabled && s.mouseEnabled then
    specKeyboardComboSat s || specMouseSat s
  else if s.keyboardEnabled then specKeyboardComboSat s
  else if s.mouseEnabled then specMouseSat s
  else false

/-- C1: for every trigger configuration and runtime state, the combined
trigger predicate `_triggers_active` agrees with the specification
truth table: both enabled → combo OR mouse; exactly one enabled → that
condition alone; neither → false, with combo satisfaction = non-empty
subset of pressed keys and mouse satisfaction = configured and pressed. -/
theorem triggers_active_matches_spec_truth_table (s : SvcState) :
    triggersActive s = specCombinedTrigger s := by
  unfold triggersActive specCombinedTrigger hotkeyActive mouseActive
    specKeyboardComboSat specMouseSat
  cases hk : s.keyboardEnabled <;> cases hm : s.mouseEnabled <;> simp

/-! ## Silence heuristic (`_is_silence`) -/

/-- Peak absolute amplitude of a decoded sample buffer
(`max(abs(sample) for sample in samples)`; the `0` seed is inert because
the branch computing the peak is reached only on non-empty buffers and
absolute values are non-negative). -/
def peakAmplitude (samples : List Int) : Int :=
  samples.foldl (fun acc x => max acc |x|) 0

/-- `_is_silence`: the raw byte buffer is modelled by its decoded 16-bit
samples, so the Python byte-length test `len(raw_audio) < min_samples * 2`
becomes `2 * samples.length < minSamples * 2`. -/
def isSilence (samples : List Int) (silenceThreshold : Int := 300)
    (minSamples : Nat := 1600) : Bool :=
  if samples.isEmpty then true
  else if 2 * samples.length < minSamples * 2 then true
  else peakAmplitude samples < silenceThreshold

theorem seed_le_foldl_max (l : List Int) (seed : Int) :
    seed ≤ l.foldl (fun acc z => max acc |z|) seed := by
  induction l generalizing seed with
  | nil => simp
  | cons y ys ih =>
    exact le_trans (le_max_left seed |y|) (by simpa using ih (max seed |y|))

theorem abs_mem_le_foldl_max {l : List Int} {x : Int} (hx : x ∈ l) (seed : Int) :
    |x| ≤ l.foldl (fun acc z => max acc |z|) seed := by
  induction l generalizing seed with
  | nil => cases hx
  | cons y ys ih =>
    simp only [List.foldl_cons]
    rcases List.mem_cons.mp hx with rfl | hmem
    · exact le_trans (le_max_right seed |x|) (seed_le_foldl_max ys (max seed |x|))
    · exact ih hmem (max seed |y|)

theorem foldl_max_le {l : List Int} {b seed : Int} (hs : seed ≤ b)
    (h : ∀ x ∈ l, |x| ≤ b) :
    l.foldl (fun acc z => max acc |z|) seed ≤ b := by
  induction l generalizing seed with
  | nil => simpa
  | cons y ys ih =>
    simpa using ih (max_le hs (h y (by simp))) (fun x hx => h x (by simp [hx]))

/-- C4 counterexample: the buffer consisting of the single sample `300`
has a sample at the threshold amplitude yet `_is_silence` classifies it
as silence (the short-buffer gate fires first), refuting "never
classifies as silence a buffer containing a sample whose absolute
amplitude is at or above the threshold" as an unconditional statement. -/
theorem is_silence_short_loud_counterexample :
    isSilence [(300 : Int)] = true ∧ (300 : Int) ≤ |(300 : Int)| := by
  constructor
  · rfl
  · decide

theorem isSilence_true_of_allZero {samples : List Int}
    (hzero : ∀ x ∈ samples, x = 0) : isSilence samples = true := by
  by_cases hempty : samples.isEmpty = true
  · simp [isSilence, hempty]
  · by_cases hshort : 2 * samples.length < 1600 * 2
    · simp [isSilence, hempty, hshort]
    · have hpeak : peakAmplitude samples ≤ 0 :=
        foldl_max_le le_rfl (fun x hx => by simp [hzero x hx])
      unfold peakAmplitude at hpeak
      simp [isSilence, hempty, hshort, peakAmplitude]
      omega

theorem isSilence_true_of_short {samples : List Int}
    (hlen : samples.length < 1600) : isSilence samples = true := by
  by_cases hempty : samples.isEmpty = true
  · simp [isSilence, hempty]
  · have : 2 * samples.length < 1600 * 2 := by omega
    simp [isSilence, hempty, this]

theorem isSilence_false_of_loud {samples : List Int} {x : Int}
    (hlen : 1600 ≤ samples.length) (hmem : x ∈ samples) (habs : 300 ≤ |x|) :
    isSilence samples = false := by
  have hempty : samples.isEmpty = false := by
    cases samples with
    | nil => simp at hlen
    | cons y ys => rfl
  have hshort : ¬ 2 * samples.length < 1600 * 2 := by omega
  have hpeak : 300 ≤ peakAmplitude samples :=
    le_trans habs (abs_mem_le_foldl_max hmem 0)
  unfold peakAmplitude at hpeak
  simp [isSilence, hempty, hshort, peakAmplitude]
  omega

/-- C4 (amended): `_is_silence` classifies every all-zero buffer and
every buffer of fewer than 1600 samples (~0.1 s) as silence, and never
classifies as silence a buffer of at least 1600 samples that contains a
sample whose absolute amplitude is at or above the threshold 300. -/
theorem is_silence_characterization :
    (∀ samples : List Int, (∀ x ∈ samples, x = 0) → isSilence samples = true) ∧
    (∀ samples : List Int, samples.length < 1600 → isSilence samples = true) ∧
    (∀ (samples : List Int) (x : Int), 1600 ≤ samples.length → x ∈ samples →
      300 ≤ |x| → isSilence samples = false) :=
  ⟨fun _ hz => isSilence_true_of_allZero hz,
   fun _ hl => isSilence_true_of_short hl,
   fun _ _ hl hm ha => isSilence_false_of_loud hl hm ha⟩

/-- Witness for `is_silence_characterization` at concrete buffers. -/
theorem is_silence_characterization_witness :
    isSilence (List.replicate 2000 (0 : Int)) = true ∧
    isSilence [(5000 : Int)] = true ∧
    isSilence (List.replicate 1600 (300 : Int)) = false := by
  refine ⟨?_, ?_, ?_⟩
  · exact is_silence_characterization.1 _
      (fun x hx => List.eq_of_mem_replicate hx)
  · exact is_silence_characterization.2.1 _ (by simp)
  · exact is_silence_characterization.2.2 _ (300 : Int)
      (by rw [List.length_replicate])
      (List.mem_replicate.mpr ⟨by norm_num, rfl⟩) (by decide)

/-! ## Hotkey parsing and configuration (`_parse_hotkey`, `_set_record_key`)

Python string primitives (`str.split("+")`, `str.strip()`, `str.lower()`)
are modelled by structural recursion over the character data so that the
definitions compute. -/

/-- `str.split("+")` on the character list: splitting on every plus sign,
keeping empty fields (so the empty string yields one empty field). -/
def splitPlusChars : List Char → List (List Char)
  | [] => [[]]
  | c :: rest =>
    if c = '+' then [] :: splitPlusChars rest
    else
      match splitPlusChars rest with
      | s :: ss => (c :: s) :: ss
      | [] => [[c]]

/-- `label.split("+")`. -/
def pySplitPlus (s : String) : List String :=
  (splitPlusChars s.data).map String.mk

/-- `str.strip()`: drop whitespace from both ends (ASCII whitespace,
which covers every label the program handles). -/
def stripChars (l : List Char) : List Char :=
  ((l.dropWhile Char.isWhitespace).reverse.dropWhile Char.isWhitespace).reverse

/-- `part.strip()`. -/
def pyStrip (s : String) : String := String.mk (stripChars s.data)

/-- `part.lower()`. -/
def pyLower (s : String) : String := String.mk (s.data.map Char.toLower)

/-- The loop body of `_parse_hotkey`: each raw field is stripped; empty
fields are skipped; single-character parts are lower-cased and accepted;
longer parts must name a member of the `Key` enum (`Key[part]`,
modelled by the `isKeyName` oracle) or a `ValueError` is raised. -/
def parseParts (isKeyName : String → Bool) : List String → Except String (List String)
  | [] => .ok []
  | raw :: rest =>
    let part := pyStrip raw
    if part = "" then parseParts isKeyName rest
    else if part.length = 1 then
      (parseParts isKeyName rest).map (fun ps => pyLower part :: ps)
    else if isKeyName part then
      (parseParts isKeyName rest).map (fun ps => part :: ps)
    else .error ("Unknown key name " ++ part)

/-- `_parse_hotkey`: parse all fields, then require at least one part. -/
def parseHotkey (isKeyName : String → Bool) (label : String) :
    Except String (List String) :=
  match parseParts isKeyName (pySplitPlus label) with
  | .error e => .error e
  | .ok parts =>
    if parts.isEmpty then .error "Hotkey must include at least one key"
    else .ok parts

/-- The state touched by `_set_record_key`: the configured key-part set,
the pressed-key set, the current label, and the reported errors
(`_report_error` messages, in order). -/
structure HotkeyConfig where
  hotkeyParts : List String
  pressedKeys : List String
  keyLabel : String
  errors : List String
deriving Repr, DecidableEq

/-- `_set_record_key`: the empty label clears the configuration; a label
that parses installs the de-duplicated part set (`set(...)`) and clears
`pressed_keys`; a `ValueError` from parsing is reported and leaves the
configuration untouched. -/
def setRecordKey (isKeyName : String → Bool) (label : String)
    (c : HotkeyConfig) : HotkeyConfig :=
  if label = "" then
    { c with hotkeyParts := [], pressedKeys := [], keyLabel := "" }
  else
    match parseHotkey isKeyName label with
    | .ok parts =>
      { c with hotkeyParts := parts.eraseDups, pressedKeys := [], keyLabel := label }
    | .error e =>
      { c with errors := c.errors ++ ["Invalid hotkey " ++ label ++ ": " ++ e] }

theorem parseParts_error_of_bad {isKeyName : String → Bool} {l : List String}
    {raw : String} (hmem : raw ∈ l) (hlen : 2 ≤ (pyStrip raw).length)
    (hbad : isKeyName (pyStrip raw) = false) :
    ∃ e, parseParts isKeyName l = .error e := by
  induction l with
  | nil => cases hmem
  | cons y ys ih =>
    rcases List.mem_cons.mp hmem with rfl | hmem2
    · have h1 : ¬ pyStrip raw = "" := by
        intro h
        rw [h] at hlen
        simp [String.length] at hlen
      have h2 : ¬ (pyStrip raw).length = 1 := by omega
      exact ⟨"Unknown key name " ++ pyStrip raw, by simp [parseParts, h1, h2, hbad]⟩
    · obtain ⟨e, he⟩ := ih hmem2
      by_cases h1 : pyStrip y = ""
      · exact ⟨e, by simp [parseParts, h1, he]⟩
      · by_cases h2 : (pyStrip y).length = 1
        · exact ⟨e, by simp [parseParts, h1, h2, he, Except.map]⟩
        · by_cases h3 : isKeyName (pyStrip y) = true
          · exact ⟨e, by simp [parseParts, h1, h2, h3, he, Except.map]⟩
          · exact ⟨"Unknown key name " ++ pyStrip y, by simp [parseParts, h1, h2, h3]⟩

theorem parseParts_allBlank {isKeyName : String → Bool} {l : List String}
    (h : ∀ raw ∈ l, pyStrip raw = "") :
    parseParts isKeyName l = .ok [] := by
  induction l with
  | nil => rfl
  | cons y ys ih =>
    have hy : pyStrip y = "" := h y (by simp)
    simp only [parseParts, hy, if_pos rfl]
    exact ih (fun raw hr => h raw (by simp [hr]))

/-- C8: applying a hotkey label containing an unrecognized key name
(a stripped field of length at least two that `Key[...]` does not know)
makes `_parse_hotkey` raise, and `_set_record_key` then leaves the
configured key-part set, the label and the pressed-key set unchanged
and appends one reported error; the invalid hotkey is never installed. -/
theorem set_record_key_rejects_unknown_key
    (isKeyName : String → Bool) (label : String) (c : HotkeyConfig) (raw : String)
    (hmem : raw ∈ pySplitPlus label) (hlen : 2 ≤ (pyStrip raw).length)
    (hbad : isKeyName (pyStrip raw) = false) :
    (∃ e, parseHotkey isKeyName label = .error e) ∧
    (setRecordKey isKeyName label c).hotkeyParts = c.hotkeyParts ∧
    (setRecordKey isKeyName label c).keyLabel = c.keyLabel ∧
    (setRecordKey isKeyName label c).pressedKeys = c.pressedKeys ∧
    (∃ msg, (setRecordKey isKeyName label c).errors = c.errors ++ [msg]) := by
  have hlabel : ¬ label = "" := by
    intro h
    subst h
    have : raw = "" := by
      have : pySplitPlus "" = [""] := rfl
      rw [this] at hmem
      simpa using hmem
    subst this
    simp [pyStrip, stripChars, String.length] at hlen
  obtain ⟨e, he⟩ := parseParts_error_of_bad hmem hlen hbad
  have hpe : parseHotkey isKeyName label = .error e := by
    simp [parseHotkey, he]
  refine ⟨⟨e, hpe⟩, ?_, ?_, ?_, ?_⟩ <;>
    simp [setRecordKey, hlabel, hpe]

/-- Witness for `set_record_key_rejects_unknown_key`: the label
`ctrl_q` is rejected and the previous configuration survives. -/
theorem set_record_key_rejects_unknown_key_witness :
    (setRecordKey (fun s => s == "ctrl_r") "ctrl_q"
      ⟨["ctrl_r"], ["x"], "ctrl_r", []⟩).hotkeyParts = ["ctrl_r"] ∧
    (setRecordKey (fun s => s == "ctrl_r") "ctrl_q"
      ⟨["ctrl_r"], ["x"], "ctrl_r", []⟩).pressedKeys = ["x"] := by
  have h := set_record_key_rejects_unknown_key (fun s => s == "ctrl_r") "ctrl_q"
    ⟨["ctrl_r"], ["x"], "ctrl_r", []⟩ "ctrl_q" (by decide) (by decide) (by decide)
  exact ⟨h.2.1, h.2.2.2.1⟩

/-- C9: the empty label is not an error: `_set_record_key ""` clears the
key-part set (so the keyboard condition is never satisfied afterwards,
since an empty part set deactivates `_hotkey_active`) and clears the
pressed-key set; by contrast a non-empty label whose fields all strip
to nothing parses to no parts and is rejected with the previous
configuration retained and an error reported. -/
theorem set_record_key_empty_clears_blank_rejected
    (isKeyName : String → Bool) (c : HotkeyConfig) :
    (setRecordKey isKeyName "" c =
      { c with hotkeyParts := [], pressedKeys := [], keyLabel := "" }) ∧
    (∀ s : SvcState, s.hotkeyParts = [] → hotkeyActive s = false) ∧
    (∀ label : String, ¬ label = "" → (∀ raw ∈ pySplitPlus label, pyStrip raw = "") →
      parseHotkey isKeyName label = .error "Hotkey must include at least one key" ∧
      (setRecordKey isKeyName label c).hotkeyParts = c.hotkeyParts ∧
      (setRecordKey isKeyName label c).keyLabel = c.keyLabel ∧
      (setRecordKey isKeyName label c).pressedKeys = c.pressedKeys ∧
      (∃ msg, (setRecordKey isKeyName label c).errors = c.errors ++ [msg])) := by
  refine ⟨by simp [setRecordKey], ?_, ?_⟩
  · intro s hs
    simp [hotkeyActive, hs]
  · intro label hlabel hblank
    have hpp : parseParts isKeyName (pySplitPlus label) = .ok [] :=
      parseParts_allBlank hblank
    have hpe : parseHotkey isKeyName label =
        .error "Hotkey must include at least one key" := by
      simp [parseHotkey, hpp]
    refine ⟨hpe, ?_, ?_, ?_, ?_⟩ <;>
      simp [setRecordKey, hlabel, hpe]

/-- Witness for `set_record_key_empty_clears_blank_rejected`: the empty
label clears the part set, while the label consisting of one plus sign
is rejected and retains the previous parts. -/
theorem set_record_key_empty_clears_blank_rejected_witness :
    (setRecordKey (fun _ => false) "" ⟨["ctrl_r"], ["x"], "ctrl_r", []⟩).hotkeyParts = [] ∧
    parseHotkey (fun _ => false) "+" = .error "Hotkey must include at least one key" ∧
    (setRecordKey (fun _ => false) "+" ⟨["ctrl_r"], ["x"], "ctrl_r", []⟩).hotkeyParts
      = ["ctrl_r"] := by
  have h := set_record_key_empty_clears_blank_rejected (fun _ => false)
    ⟨["ctrl_r"], ["x"], "ctrl_r", []⟩
  have h3 := h.2.2 "+" (by decide) (by decide)
  exact ⟨by rw [h.1], h3.1, h3.2.1⟩

/-! ## Audio capture, recording transitions and pause
(`_start_audio_capture`, `_stop_audio_capture`, `_maybe_start_recording`,
`_maybe_stop_recording`, `on_press`, `on_release`, `on_click`,
`set_paused`) -/

/-- `_start_audio_capture`: a no-op success when the stream is already
open; otherwise the attempt to open `sd.RawInputStream` succeeds or
raises according to the environment bit `ok`. Returns the updated state
and the Boolean result. -/
def startAudioCapture (ok : Bool) (s : SvcState) : SvcState × Bool :=
  if s.streamOpen then (s, true)
  else if ok then ({ s with streamOpen := true }, true)
  else (s, false)

/-- `_stop_audio_capture`: a non-forced stop is a no-op in
continuous-listen mode; otherwise the stream is torn down. -/
def stopAudioCapture (force : Bool) (s : SvcState) : SvcState :=
  if !force && s.continuousListen then s
  else { s with streamOpen := false }

/-- `_maybe_start_recording`: start a session when idle, not paused and
the trigger predicate holds, provided audio capture starts; the buffer
is reset on entry. -/
def maybeStartRecording (ok : Bool) (s : SvcState) : SvcState :=
  if s.recording || s.paused || !(triggersActive s) then s
  else
    match startAudioCapture ok s with
    | (s1, false) => s1
    | (s1, true) => { s1 with recording := true, audioData := [] }

/-- `_maybe_stop_recording`: close the session when recording and the
trigger predicate no longer holds; capture is stopped (non-forced), the
buffer is drained under the lock and handed to a new worker thread. -/
def maybeStopRecording (s : SvcState) : SvcState :=
  if !s.recording || triggersActive s then s
  else
    let s1 := stopAudioCapture false { s with recording := false }
    { s1 with audioData := [], workers := s1.workers ++ [s1.audioData] }

/-- `pressed_keys.add(name)` (set add). -/
def addKey (n : String) (l : List String) : List String :=
  if l.contains n then l else l ++ [n]

/-- `pressed_keys.discard(name)` (set discard). -/
def removeKey (n : String) (l : List String) : List String :=
  l.filter (fun k => !(k == n))

/-- One input event delivered by the keyboard or mouse listener. The
key carries the result of `_key_name` (`none` when the key has no
canonical name); `captureOk` tells whether an attempted stream open
would succeed at this moment. -/
inductive InputEvent
  | press (key : Option String) (captureOk : Bool)
  | release (key : Option String)
  | click (button : MouseButton) (down : Bool) (captureOk : Bool)
deriving Repr, DecidableEq

/-- `on_press`. -/
def onPress (key : Option String) (ok : Bool) (s : SvcState) : SvcState :=
  if s.paused then s
  else
    let s1 := match key with
      | some n => { s with pressedKeys := addKey n s.pressedKeys }
      | none => s
    maybeStartRecording ok s1

/-- `on_release`. -/
def onRelease (key : Option String) (s : SvcState) : SvcState :=
  if s.paused then s
  else
    let s1 := match key with
      | some n => { s with pressedKeys := removeKey n s.pressedKeys }
      | none => s
    maybeStopRecording s1

/-- `on_click`. -/
def onClick (b : MouseButton) (down : Bool) (ok : Bool) (s : SvcState) : SvcState :=
  if s.paused then s
  else if s.mouseButton.isNone then s
  else if s.mouseButton ≠ some b then s
  else
    let s1 := { s with mousePressed := down }
    if down then maybeStartRecording ok s1 else maybeStopRecording s1

/-- Dispatch of one listener event. -/
def step (s : SvcState) : InputEvent → SvcState
  | .press k ok => onPress k ok s
  | .release k => onRelease k s
  | .click b down ok => onClick b down ok s

/-- `set_paused`. The source assigns `audio_data = []` inside
`set_paused` without a `global audio_data` declaration, which binds a
function-local name, so the module-level buffer is left untouched; the
model reproduces that behaviour. -/
def setPaused (value : Bool) (ok : Bool) (s : SvcState) : SvcState :=
  let s1 := { s with paused := value }
  if value then
    let s2 := if s1.recording then { s1 with recording := false } else s1
    stopAudioCapture true s2
  else
    if s1.continuousListen then (startAudioCapture ok s1).1 else s1

/-- The runtime-state part of an event (pressed keys / mouse flag),
before the recording logic runs: a helper for stating the transition
characterization. -/
def inputUpdate (s : SvcState) : InputEvent → SvcState
  | .press (some n) _ => { s with pressedKeys := addKey n s.pressedKeys }
  | .press none _ => s
  | .release (some n) => { s with pressedKeys := removeKey n s.pressedKeys }
  | .release none => s
  | .click b down _ =>
    if s.mouseButton = some b then { s with mousePressed := down } else s

/-- Events able to begin a session: key presses, and presses of the
configured mouse button (`on_release` and button releases only ever
stop). -/
def isStartEvent (s : SvcState) : InputEvent → Bool
  | .press _ _ => true
  | .release _ => false
  | .click b down _ => down && s.mouseButton == some b

/-- The capture-success bit carried by an event. -/
def captureOkOf : InputEvent → Bool
  | .press _ ok => ok
  | .release _ => false
  | .click _ _ ok => ok

theorem triggersActive_congr {s t : SvcState}
    (h1 : t.keyboardEnabled = s.keyboardEnabled)
    (h2 : t.mouseEnabled = s.mouseEnabled)
    (h3 : t.hotkeyParts = s.hotkeyParts)
    (h4 : t.pressedKeys = s.pressedKeys)
    (h5 : t.mouseButton = s.mouseButton)
    (h6 : t.mousePressed = s.mousePressed) :
    triggersActive t = triggersActive s := by
  unfold triggersActive hotkeyActive mouseActive
  rw [h1, h2, h3, h4, h5, h6]

theorem maybeStartRecording_eq (ok : Bool) (s : SvcState) :
    maybeStartRecording ok s =
      if s.recording = false ∧ s.paused = false ∧ triggersActive s = true ∧
          (s.streamOpen || ok) = true
      then { s with recording := true, audioData := [], streamOpen := true }
      else s := by
  cases hr : s.recording <;> cases hp : s.paused <;>
    cases ht : triggersActive s <;> cases ho : s.streamOpen <;> cases hok : ok <;>
    simp [maybeStartRecording, startAudioCapture, hr, hp, ht, ho, hok]

theorem maybeStopRecording_eq (s : SvcState) :
    maybeStopRecording s =
      if s.recording = true ∧ triggersActive s = false
      then { s with
              recording := false
              audioData := []
              workers := s.workers ++ [s.audioData]
              streamOpen := (if s.continuousListen then s.streamOpen else false) }
      else s := by
  cases hr : s.recording <;> cases ht : triggersActive s <;>
    cases hc : s.continuousListen <;>
    simp [maybeStopRecording, stopAudioCapture, hr, ht, hc]

theorem contains_addKey {l : List String} {n p : String}
    (h : l.contains p = true) : (addKey n l).contains p = true := by
  unfold addKey
  simp only [List.elem_eq_mem, decide_eq_true_eq] at h ⊢
  by_cases hc : n ∈ l <;> simp [hc, h]

theorem triggersActive_addKey {s : SvcState} (n : String)
    (h : triggersActive s = true) :
    triggersActive { s with pressedKeys := addKey n s.pressedKeys } = true := by
  unfold triggersActive hotkeyActive mouseActive at h ⊢
  have hall : s.hotkeyParts.all (fun p => s.pressedKeys.contains p) = true →
      s.hotkeyParts.all (fun p => (addKey n s.pressedKeys).contains p) = true := by
    intro hx
    rw [List.all_eq_true] at hx ⊢
    intro p hp
    exact contains_addKey (hx p hp)
  cases hk : s.keyboardEnabled <;> cases hm : s.mouseEnabled <;>
    simp_all <;> tauto

theorem triggersActive_mousePressedTrue {s : SvcState}
    (h : triggersActive s = true) :
    triggersActive { s with mousePressed := true } = true := by
  unfold triggersActive hotkeyActive mouseActive at h ⊢
  cases hk : s.keyboardEnabled <;> cases hm : s.mouseEnabled <;>
    simp_all <;> tauto

/-- Per-event contract of the recording state machine, for a non-paused
state satisfying the session invariant. Reading the conjuncts: events
keep the service unpaused; recording holds only while the trigger
predicate holds; a session starts exactly on a press (or
configured-button mouse-press) event after which the trigger is active,
no session is open, and capture is available (stream already open or
the open attempt succeeds); the buffer is reset on entry; the session
stops exactly on the event that makes the trigger predicate false; the
buffer is drained to a single new worker on exit; and workers are
spawned only on exits. -/
def StepSpec (s : SvcState) (e : InputEvent) : Prop :=
  (step s e).paused = false ∧
  ((step s e).recording = true → triggersActive (step s e) = true) ∧
  ((s.recording = false ∧ (step s e).recording = true) ↔
    (s.recording = false ∧ isStartEvent s e = true ∧
      triggersActive (inputUpdate s e) = true ∧
      (s.streamOpen || captureOkOf e) = true)) ∧
  (s.recording = false → (step s e).recording = true →
    (step s e).audioData = []) ∧
  ((s.recording = true ∧ (step s e).recording = false) ↔
    (s.recording = true ∧ triggersActive (inputUpdate s e) = false)) ∧
  (s.recording = true → (step s e).recording = false →
    (step s e).audioData = [] ∧ (step s e).workers = s.workers ++ [s.audioData]) ∧
  ((s.recording = true ∧ (step s e).recording = false) ∨
    (step s e).workers = s.workers)

theorem stepSpec_of_start (s : SvcState) (e : InputEvent)
    (hp : s.paused = false)
    (hinv : s.recording = true → triggersActive s = true)
    (hstep : step s e = maybeStartRecording (captureOkOf e) (inputUpdate s e))
    (hse : isStartEvent s e = true)
    (hur : (inputUpdate s e).recording = s.recording)
    (hup : (inputUpdate s e).paused = s.paused)
    (huo : (inputUpdate s e).streamOpen = s.streamOpen)
    (huw : (inputUpdate s e).workers = s.workers)
    (hmono : triggersActive s = true → triggersActive (inputUpdate s e) = true) :
    StepSpec s e := by
  have hcongr : ∀ u : SvcState,
      triggersActive { u with recording := true, audioData := [], streamOpen := true }
        = triggersActive u :=
    fun u => triggersActive_congr rfl rfl rfl rfl rfl rfl
  rw [maybeStartRecording_eq] at hstep
  by_cases hcond : ((inputUpdate s e).recording = false ∧
      (inputUpdate s e).paused = false ∧
      triggersActive (inputUpdate s e) = true ∧
      ((inputUpdate s e).streamOpen || captureOkOf e) = true)
  · rw [if_pos hcond] at hstep
    obtain ⟨hc1, hc2, hc3, hc4⟩ := hcond
    refine ⟨?_, ?_, ?_, ?_, ?_, ?_, ?_⟩
    · rw [hstep]
      show (inputUpdate s e).paused = false
      rw [hup]; exact hp
    · intro _
      rw [hstep, hcongr]; exact hc3
    · constructor
      · rintro ⟨h1, -⟩
        refine ⟨h1, hse, hc3, ?_⟩
        rw [huo] at hc4; exact hc4
      · rintro ⟨h1, -, -, -⟩
        exact ⟨h1, by rw [hstep]⟩
    · intro _ _
      rw [hstep]
    · constructor
      · rintro ⟨-, h2⟩
        rw [hstep] at h2
        cases h2
      · rintro ⟨h1, -⟩
        rw [hur, h1] at hc1
        cases hc1
    · intro h1 _
      rw [hur, h1] at hc1
      cases hc1
    · right
      rw [hstep]
      show (inputUpdate s e).workers = s.workers
      exact huw
  · rw [if_neg hcond] at hstep
    refine ⟨?_, ?_, ?_, ?_, ?_, ?_, ?_⟩
    · rw [hstep, hup]; exact hp
    · intro h
      rw [hstep] at h ⊢
      rw [hur] at h
      exact hmono (hinv h)
    · constructor
      · rintro ⟨h1, h2⟩
        rw [hstep, hur, h1] at h2
        cases h2
      · rintro ⟨h1, -, hact, hok⟩
        exact absurd ⟨by rw [hur, h1], by rw [hup, hp], hact,
          by rw [huo]; exact hok⟩ hcond
    · intro h1 h2
      rw [hstep, hur, h1] at h2
      cases h2
    · constructor
      · rintro ⟨h1, h2⟩
        rw [hstep, hur, h1] at h2
        cases h2
      · rintro ⟨h1, hact⟩
        rw [hmono (hinv h1)] at hact
        cases hact
    · intro h1 h2
      rw [hstep, hur, h1] at h2
      cases h2
    · right
      rw [hstep]; exact huw

theorem stepSpec_of_stop (s : SvcState) (e : InputEvent)
    (hp : s.paused = false)
    (hinv : s.recording = true → triggersActive s = true)
    (hstep : step s e = maybeStopRecording (inputUpdate s e))
    (hse : isStartEvent s e = false)
    (hur : (inputUpdate s e).recording = s.recording)
    (hup : (inputUpdate s e).paused = s.paused)
    (hud : (inputUpdate s e).audioData = s.audioData)
    (huw : (inputUpdate s e).workers = s.workers) :
    StepSpec s e := by
  rw [maybeStopRecording_eq] at hstep
  by_cases hcond : ((inputUpdate s e).recording = true ∧
      triggersActive (inputUpdate s e) = false)
  · rw [if_pos hcond] at hstep
    obtain ⟨hc1, hc2⟩ := hcond
    refine ⟨?_, ?_, ?_, ?_, ?_, ?_, ?_⟩
    · rw [hstep]
      show (inputUpdate s e).paused = false
      rw [hup]; exact hp
    · intro h
      rw [hstep] at h
      cases h
    · constructor
      · rintro ⟨h1, -⟩
        rw [hur, h1] at hc1
        cases hc1
      · rintro ⟨-, hse2, -, -⟩
        rw [hse] at hse2
        cases hse2
    · intro h1 _
      rw [hur, h1] at hc1
      cases hc1
    · constructor
      · rintro ⟨h1, -⟩
        exact ⟨h1, hc2⟩
      · rintro ⟨h1, -⟩
        exact ⟨h1, by rw [hstep]⟩
    · intro _ _
      rw [hstep]
      exact ⟨rfl, by
        show (inputUpdate s e).workers ++ [(inputUpdate s e).audioData]
            = s.workers ++ [s.audioData]
        rw [hud, huw]⟩
    · left
      exact ⟨by rw [← hur]; exact hc1, by rw [hstep]⟩
  · rw [if_neg hcond] at hstep
    refine ⟨?_, ?_, ?_, ?_, ?_, ?_, ?_⟩
    · rw [hstep, hup]; exact hp
    · intro h
      rw [hstep] at h ⊢
      cases hA : triggersActive (inputUpdate s e)
      · exact absurd ⟨h, hA⟩ hcond
      · rfl
    · constructor
      · rintro ⟨h1, h2⟩
        rw [hstep, hur, h1] at h2
        cases h2
      · rintro ⟨-, hse2, -, -⟩
        rw [hse] at hse2
        cases hse2
    · intro h1 h2
      rw [hstep, hur, h1] at h2
      cases h2
    · constructor
      · rintro ⟨h1, h2⟩
        rw [hstep, hur, h1] at h2
        cases h2
      · rintro ⟨h1, hact⟩
        exact absurd ⟨by rw [hur]; exact h1, hact⟩ hcond
    · intro h1 h2
      rw [hstep, hur, h1] at h2
      cases h2
    · right
      rw [hstep]; exact huw

theorem stepSpec_of_noop (s : SvcState) (e : InputEvent)
    (hp : s.paused = false)
    (hinv : s.recording = true → triggersActive s = true)
    (hstep : step s e = s)
    (hse : isStartEvent s e = false)
    (hiu : inputUpdate s e = s) :
    StepSpec s e := by
  refine ⟨?_, ?_, ?_, ?_, ?_, ?_, ?_⟩
  · rw [hstep]; exact hp
  · intro h
    rw [hstep] at h ⊢
    exact hinv h
  · constructor
    · rintro ⟨h1, h2⟩
      rw [hstep, h1] at h2
      cases h2
    · rintro ⟨-, hse2, -, -⟩
      rw [hse] at hse2
      cases hse2
  · intro h1 h2
    rw [hstep, h1] at h2
    cases h2
  · constructor
    · rintro ⟨h1, h2⟩
      rw [hstep, h1] at h2
      cases h2
    · rintro ⟨h1, hact⟩
      rw [hiu, hinv h1] at hact
      cases hact
  · intro h1 h2
    rw [hstep, h1] at h2
    cases h2
  · right
    rw [hstep]

/-- C2 (amended): over key/mouse events processed while the service is
not paused, given the session invariant (recording implies active
trigger), each event preserves pause state and the invariant; a session
starts exactly on a press (or configured-button press) event after
which the trigger predicate is active, no session is open, and audio
capture starts successfully (the stream is already open or the open
attempt succeeds) — normally the false-to-true transition event itself,
deferred within the active interval only if an earlier capture attempt
failed; the buffer is reset on entry; the session stops exactly on the
event on which the trigger predicate becomes false; the buffer is
drained to exactly one new worker on exit; and no worker is spawned
otherwise (so sessions never overlap: a start requires the flag to be
down). -/
theorem recording_step_characterization (s : SvcState) (e : InputEvent)
    (hp : s.paused = false)
    (hinv : s.recording = true → triggersActive s = true) :
    StepSpec s e := by
  cases e with
  | press k ok =>
    cases k with
    | some n =>
      exact stepSpec_of_start s (.press (some n) ok) hp hinv
        (by simp [step, onPress, hp, inputUpdate, captureOkOf])
        rfl rfl rfl rfl rfl
        (fun h => triggersActive_addKey n h)
    | none =>
      exact stepSpec_of_start s (.press none ok) hp hinv
        (by simp [step, onPress, hp, inputUpdate, captureOkOf])
        rfl rfl rfl rfl rfl (fun h => h)
  | release k =>
    cases k with
    | some n =>
      exact stepSpec_of_stop s (.release (some n)) hp hinv
        (by simp [step, onRelease, hp, inputUpdate])
        rfl rfl rfl rfl rfl
    | none =>
      exact stepSpec_of_stop s (.release none) hp hinv
        (by simp [step, onRelease, hp, inputUpdate])
        rfl rfl rfl rfl rfl
  | click b down ok =>
    cases hmb : s.mouseButton with
    | none =>
      apply stepSpec_of_noop s (.click b down ok) hp hinv
      · simp [step, onClick, hp, hmb]
      · simp [isStartEvent, hmb]
      · simp [inputUpdate, hmb]
    | some b2 =>
      by_cases hbb : b2 = b
      · subst hbb
        cases down with
        | false =>
          apply stepSpec_of_stop s (.click b2 false ok) hp hinv
          · simp [step, onClick, hp, hmb, inputUpdate]
          · simp [isStartEvent]
          · simp [inputUpdate, hmb]
          · simp [inputUpdate, hmb]
          · simp [inputUpdate, hmb]
          · simp [inputUpdate, hmb]
        | true =>
          apply stepSpec_of_start s (.click b2 true ok) hp hinv
          · simp [step, onClick, hp, hmb, inputUpdate, captureOkOf]
          · simp [isStartEvent, hmb]
          · simp [inputUpdate, hmb]
          · simp [inputUpdate, hmb]
          · simp [inputUpdate, hmb]
          · simp [inputUpdate, hmb]
          · intro h
            simpa [inputUpdate, hmb] using triggersActive_mousePressedTrue h
      · apply stepSpec_of_noop s (.click b down ok) hp hinv
        · simp [step, onClick, hp, hmb, hbb]
        · simp [isStartEvent, hmb, hbb]
        · simp [inputUpdate, hmb, hbb]

/-- A concrete idle state with the stream already open, used by the
witness below. -/
def witnessIdleState : SvcState :=
  { keyboardEnabled := true, mouseEnabled := false, hotkeyParts := ["ctrl_r"],
    pressedKeys := [], mouseButton := none, mousePressed := false,
    paused := false, recording := false, audioData := [[7]],
    streamOpen := true, continuousListen := true, workers := [] }

/-- Witness for `recording_step_characterization`: pressing the
configured key in the idle state starts a session with a reset buffer. -/
theorem recording_step_characterization_witness :
    (step witnessIdleState (.press (some "ctrl_r") true)).recording = true ∧
    (step witnessIdleState (.press (some "ctrl_r") true)).audioData = [] := by
  have h := recording_step_characterization witnessIdleState
    (.press (some "ctrl_r") true) rfl (by decide)
  have hs := (h.2.2.1).mpr ⟨rfl, rfl, by decide, rfl⟩
  exact ⟨hs.2, h.2.2.2.1 rfl hs.2⟩

/-- Initial state of the deferred-start trace: trigger inactive, idle,
stream closed, on-demand listening. -/
def recStart0 : SvcState :=
  { keyboardEnabled := true, mouseEnabled := false, hotkeyParts := ["ctrl_r"],
    pressedKeys := [], mouseButton := none, mousePressed := false,
    paused := false, recording := false, audioData := [],
    streamOpen := false, continuousListen := false, workers := [] }

/-- After pressing `ctrl_r` while the stream-open attempt fails. -/
def recStart1 : SvcState := step recStart0 (.press (some "ctrl_r") false)

/-- After pressing `a` with the stream-open attempt succeeding. -/
def recStart2 : SvcState := step recStart1 (.press (some "a") true)

/-- C2 counterexample: when audio capture fails at the event on which
the trigger predicate transitions from false to true, the recording
flag stays down there, and rises on a later press event at which the
predicate was already true — so the recording interval does not begin
at the false-to-true transition event, refuting the claim as stated. -/
theorem recording_deferred_start_counterexample :
    triggersActive recStart0 = false ∧
    triggersActive recStart1 = true ∧ recStart1.recording = false ∧
    triggersActive recStart2 = true ∧ recStart2.recording = true := by
  decide

/-- A non-paused state in the middle of a recording session with a
non-empty in-flight buffer. -/
def pauseWhileRecordingState : SvcState :=
  { keyboardEnabled := true, mouseEnabled := false, hotkeyParts := ["ctrl_r"],
    pressedKeys := ["ctrl_r"], mouseButton := none, mousePressed := false,
    paused := false, recording := true, audioData := [[1, 2, 3]],
    streamOpen := true, continuousListen := true, workers := [] }

/-- C5: entering pause during an open session forces Recording→Idle,
force-stops audio capture and hands nothing to a transcription worker —
but the in-flight audio buffer is NOT emptied: `set_paused` assigns
`audio_data = []` without a `global audio_data` declaration, so the
assignment binds a function-local name and the module-level buffer
keeps its contents. -/
theorem set_paused_forces_idle_but_keeps_buffer :
    (setPaused true false pauseWhileRecordingState).paused = true ∧
    (setPaused true false pauseWhileRecordingState).recording = false ∧
    (setPaused true false pauseWhileRecordingState).streamOpen = false ∧
    (setPaused true false pauseWhileRecordingState).workers = [] ∧
    (setPaused true false pauseWhileRecordingState).audioData = [[1, 2, 3]] := by
  decide

/-! ## Transcription worker pipeline
(`_record_and_transcribe`, `_process_and_type_transcript`, `worker`)

The external collaborators (`apply_whisper`, the LLM corrector call,
`convert_chinese`, `process_transcript`, `keyboard_controller.type`)
are parameters; each models a Python call that either returns or raises
(`Except`). -/

/-- The transcription provider `apply_whisper`, applied to the joined
audio (the WAV container is a faithful wrapper of these samples). -/
structure TranscribeEnv where
  transcribe : List Int → Except String String

/-- The collaborators and configuration of
`_process_and_type_transcript`. -/
structure PipelineEnv where
  llmCorrectEnabled : Bool
  chineseConversion : Option String
  llmCorrect : String → Except String String
  convertChinese : String → String → Except String String
  processTranscript : String → Except String String
  typeText : String → Except String Unit

/-- `_record_and_transcribe`: empty buffers and silent buffers are
skipped quietly; a transcription exception is caught there, reported
(second component) and yields no transcript. -/
def recordAndTranscribe (tenv : TranscribeEnv) (chunks : List Chunk) :
    Option String × Bool :=
  if chunks.isEmpty then (none, false)
  else
    let allAudio := chunks.join
    if isSilence allAudio then (none, false)
    else
      match tenv.transcribe allAudio with
      | .ok t => (some t, false)
      | .error _ => (none, true)

/-- `_process_and_type_transcript`: optional LLM correction, optional
script conversion, normalization, then keystroke injection. No stage is
wrapped in a handler here: any exception propagates to the caller. On
success the injected string is returned. -/
def processAndTypeTranscript (env : PipelineEnv) (transcript : String) :
    Except String String := do
  let t1 ← if env.llmCorrectEnabled then env.llmCorrect transcript
           else pure transcript
  let t2 ← match env.chineseConversion with
    | some code => env.convertChinese code t1
    | none => pure t1
  let t3 ← env.processTranscript t2
  let _ ← env.typeText t3
  pure t3

/-- The body of `worker` inside `_maybe_stop_recording`: transcribe,
then post-process and inject when a non-empty transcript came back.
`ok none` = finished without injecting, `ok (some txt)` = injected
`txt`, `error` = an exception escaped the worker function. -/
def workerRun (tenv : TranscribeEnv) (env : PipelineEnv)
    (chunks : List Chunk) : Except String (Option String) :=
  match (recordAndTranscribe tenv chunks).1 with
  | none => .ok none
  | some t =>
    if t = "" then .ok none
    else (processAndTypeTranscript env t).map some

/-- A pipeline whose normalization stage raises. -/
def explodingPipelineEnv : PipelineEnv :=
  { llmCorrectEnabled := false, chineseConversion := none,
    llmCorrect := fun t => .ok t,
    convertChinese := fun _ t => .ok t,
    processTranscript := fun _ => .error "process_transcript raised",
    typeText := fun _ => .ok () }

/-- A provider that transcribes successfully. -/
def okTranscribeEnv : TranscribeEnv := { transcribe := fun _ => .ok "hello" }

theorem join_singleton_chunk (l : Chunk) : ([l] : List Chunk).join = l := by
  show l ++ [] = l
  exact List.append_nil l

theorem workerRun_eq_of_transcript (tenv : TranscribeEnv) (env : PipelineEnv)
    {chunks : List Chunk} {t : String}
    (h : (recordAndTranscribe tenv chunks).1 = some t) (ht : ¬ t = "") :
    workerRun tenv env chunks = (processAndTypeTranscript env t).map some := by
  unfold workerRun
  rw [h]
  show (if t = "" then Except.ok none
    else Except.map some (processAndTypeTranscript env t)) = _
  rw [if_neg ht]

/-- C6 counterexample: an exception raised by the normalization stage
propagates out of the worker body — `worker` has no try/except of its
own, so the exception is not caught at the top of the worker, not
reported through the error handler, and escapes (killing that daemon
thread), refuting the claim that any pipeline exception is caught at
the top of the worker. -/
theorem worker_uncaught_exception_counterexample :
    workerRun okTranscribeEnv explodingPipelineEnv [List.replicate 1600 1000]
      = .error "process_transcript raised" := by
  have hsil : isSilence (List.replicate 1600 (1000 : Int)) = false :=
    isSilence_false_of_loud (by rw [List.length_replicate])
      (List.mem_replicate.mpr ⟨by norm_num, rfl⟩) (by decide)
  have h1 : recordAndTranscribe okTranscribeEnv
      [List.replicate 1600 (1000 : Int)] = (some "hello", false) := by
    simp only [recordAndTranscribe]
    rw [join_singleton_chunk, hsil]
    rfl
  have h2 : (recordAndTranscribe okTranscribeEnv
      [List.replicate 1600 (1000 : Int)]).1 = some "hello" := by
    rw [h1]
  rw [workerRun_eq_of_transcript okTranscribeEnv explodingPipelineEnv h2
    (by decide)]
  rfl

/-- C6 (amended): the worker catches and reports only transcription
exceptions (inside `_record_and_transcribe`), which suppress injection;
it returns without injecting whenever no usable transcript is produced;
injection happens exactly when every post-processing stage succeeds;
and an exception in any post-processing stage escapes the worker body
uncaught (terminating only that daemon thread). -/
theorem worker_exception_structure (tenv : TranscribeEnv)
    (env : PipelineEnv) (chunks : List Chunk) :
    ((recordAndTranscribe tenv chunks).1 = none →
      workerRun tenv env chunks = .ok none) ∧
    (chunks.isEmpty = false → isSilence chunks.join = false →
      ∀ err, tenv.transcribe chunks.join = .error err →
        recordAndTranscribe tenv chunks = (none, true)) ∧
    (∀ txt, workerRun tenv env chunks = .ok (some txt) ↔
      (∃ t, (recordAndTranscribe tenv chunks).1 = some t ∧ ¬ t = "" ∧
        processAndTypeTranscript env t = .ok txt)) ∧
    (∀ err, workerRun tenv env chunks = .error err ↔
      (∃ t, (recordAndTranscribe tenv chunks).1 = some t ∧ ¬ t = "" ∧
        processAndTypeTranscript env t = .error err)) := by
  refine ⟨?_, ?_, ?_, ?_⟩
  · intro h
    unfold workerRun
    rw [h]
  · intro hne hsil err herr
    unfold recordAndTranscribe
    rw [hne]
    simp only [Bool.false_eq_true, if_false]
    rw [hsil]
    simp only [Bool.false_eq_true, if_false]
    rw [herr]
  · intro txt
    unfold workerRun
    cases hrt : (recordAndTranscribe tenv chunks).1 with
    | none =>
      simp
    | some t =>
      by_cases ht : t = ""
      · simp [ht]
      · simp only [ht, if_false]
        cases hpr : processAndTypeTranscript env t with
        | ok u =>
          simp only [hpr, Except.map]
          constructor
          · intro h
            cases h
            exact ⟨t, rfl, ht, hpr⟩
          · rintro ⟨t2, ht2, -, hpr2⟩
            cases ht2
            rw [hpr] at hpr2
            cases hpr2
            rfl
        | error e =>
          simp only [hpr, Except.map]
          constructor
          · intro h
            cases h
          · rintro ⟨t2, ht2, -, hpr2⟩
            cases ht2
            rw [hpr] at hpr2
            cases hpr2
  · intro err
    unfold workerRun
    cases hrt : (recordAndTranscribe tenv chunks).1 with
    | none =>
      simp
    | some t =>
      by_cases ht : t = ""
      · simp [ht]
      · simp only [ht, if_false]
        cases hpr : processAndTypeTranscript env t with
        | ok u =>
          simp only [hpr, Except.map]
          constructor
          · intro h
            cases h
          · rintro ⟨t2, ht2, -, hpr2⟩
            cases ht2
            rw [hpr] at hpr2
            cases hpr2
        | error e =>
          simp only [hpr, Except.map]
          constructor
          · intro h
            cases h
            exact ⟨t, rfl, ht, hpr⟩
          · rintro ⟨t2, ht2, -, hpr2⟩
            cases ht2
            rw [hpr] at hpr2
            cases hpr2
            rfl

/-- A provider whose transcription call raises. -/
def failingTranscribeEnv : TranscribeEnv :=
  { transcribe := fun _ => .error "whisper down" }

/-- Witness for `worker_exception_structure`: a failing provider on a
non-silent buffer is caught and reported, and the worker still returns
normally without injecting. -/
theorem worker_exception_structure_witness :
    workerRun failingTranscribeEnv explodingPipelineEnv
      [List.replicate 1600 1000] = .ok none ∧
    recordAndTranscribe failingTranscribeEnv
      [List.replicate 1600 1000] = (none, true) := by
  have hsil : isSilence (List.replicate 1600 (1000 : Int)) = false :=
    isSilence_false_of_loud (by rw [List.length_replicate])
      (List.mem_replicate.mpr ⟨by norm_num, rfl⟩) (by decide)
  have h := worker_exception_structure failingTranscribeEnv
    explodingPipelineEnv [List.replicate 1600 (1000 : Int)]
  have h2 := h.2.1 rfl (by rw [join_singleton_chunk]; exact hsil)
    "whisper down" rfl
  exact ⟨h.1 (by rw [h2]), h2⟩

/-! ## LLM correction (`llm_correction.py`)

The HTTP response body is modelled as a JSON value; Python subscription
and attribute semantics on it are modelled exactly (`KeyError`,
`IndexError`, `TypeError`, `AttributeError`), because the `except`
clauses of `corrector` catch only `requests.RequestException` and
`(KeyError, IndexError)`. -/

/-- A parsed JSON value. -/
inductive Json
  | null
  | boolean (b : Bool)
  | num (n : Int)
  | str (s : String)
  | arr (elems : List Json)
  | obj (fields : List (String × Json))

/-- The Python exception classes the extraction chain can raise. -/
inductive PyErr
  | keyError
  | indexError
  | typeError
  | attributeError
deriving DecidableEq, Repr

/-- Python subscription `j["k"]`: key lookup on a dict, `KeyError` when
missing, `TypeError` on any non-dict value. -/
def jGetKey (j : Json) (k : String) : Except PyErr Json :=
  match j with
  | .obj fields =>
    match fields.lookup k with
    | some v => .ok v
    | none => .error .keyError
  | _ => .error .typeError

/-- Python subscription `j[i]` for a non-negative int: list indexing
(`IndexError` out of range), string indexing (one-character string,
`IndexError` out of range), `KeyError` on a dict (JSON object keys are
strings, so an int key is never present), `TypeError` otherwise. -/
def jGetIdx (j : Json) (i : Nat) : Except PyErr Json :=
  match j with
  | .arr elems =>
    match elems.get? i with
    | some v => .ok v
    | none => .error .indexError
  | .str s =>
    match s.data.get? i with
    | some c => .ok (.str (String.mk [c]))
    | none => .error .indexError
  | .obj _ => .error .keyError
  | _ => .error .typeError

/-- `response.json()["choices"][0]["message"]["content"].strip()`:
the final `.strip()` raises `AttributeError` when the content field is
not a string (e.g. JSON `null`). -/
def extractContent (body : Json) : Except PyErr String := do
  let choices ← jGetKey body "choices"
  let first ← jGetIdx choices 0
  let message ← jGetKey first "message"
  let content ← jGetKey message "content"
  match content with
  | .str s => .ok (pyStrip s)
  | _ => .error .attributeError

/-- `deque(maxlen=10).append`: push right, evict left at capacity. -/
def pushHistory (history : List String) (entry : String) : List String :=
  let h := history ++ [entry]
  if h.length > 10 then h.drop (h.length - 10) else h

/-- The outcome of the HTTP call `requests.post(...)` together with
`raise_for_status()` and JSON decoding: either some
`requests.RequestException` (connection error, timeout, HTTP error
status, undecodable body) or a decoded JSON body. -/
inductive LlmResponse
  | requestError
  | success (body : Json)

/-- The `corrector` closure of `create_llm_corrector`: whitespace-only
transcripts are returned unchanged without a provider call; a
`RequestException` and a `KeyError`/`IndexError` while extracting the
content are caught and yield the original transcript with the history
untouched; on success the stripped content is returned and appended to
the bounded history. Any other exception (here: `TypeError` or
`AttributeError` from the extraction chain) propagates. Returns the
corrected transcript together with the updated history. -/
def llmCorrector (history : List String) (transcript : String)
    (resp : LlmResponse) : Except PyErr (String × List String) :=
  if pyStrip transcript = "" then .ok (transcript, history)
  else
    match resp with
    | .requestError => .ok (transcript, history)
    | .success body =>
      match extractContent body with
      | .ok corrected => .ok (corrected, pushHistory history corrected)
      | .error .keyError => .ok (transcript, history)
      | .error .indexError => .ok (transcript, history)
      | .error e => .error e

/-- The corrector as the pipeline stage seen by
`_process_and_type_transcript` (exceptions rendered as `Except.error`
messages). -/
def llmCorrectorStage (history : List String) (resp : LlmResponse) :
    String → Except String String :=
  fun t =>
    match llmCorrector history t resp with
    | .ok (c, _) => .ok c
    | .error .keyError => .error "KeyError"
    | .error .indexError => .error "IndexError"
    | .error .typeError => .error "TypeError"
    | .error .attributeError => .error "AttributeError"

/-- C7 counterexample: a provider that answers with the JSON string
`"oops"` (not an object) makes the extraction chain raise `TypeError`,
which the corrector's `except` clauses do not catch — the corrector
raises instead of returning the uncorrected transcript, so a failure of
the correction stage can abort the pipeline. -/
theorem corrector_nondict_response_counterexample :
    llmCorrector [] "hi there" (.success (.str "oops"))
      = .error .typeError := by
  rfl

/-- C7 (amended): on a request failure, or on a response whose
structure lacks the expected key or index (`KeyError`/`IndexError`),
the corrector returns the uncorrected input transcript with the history
untouched, and the pipeline then behaves exactly as if correction were
disabled — the utterance still reaches the later stages and injection.
Responses that raise `TypeError` or `AttributeError` during extraction
propagate out of the corrector instead. -/
theorem corrector_fallback_continues_pipeline :
    (∀ (history : List String) (t : String),
      llmCorrector history t .requestError = .ok (t, history)) ∧
    (∀ (history : List String) (t : String) (body : Json),
      (extractContent body = .error .keyError ∨
       extractContent body = .error .indexError) →
      llmCorrector history t (.success body) = .ok (t, history)) ∧
    (∀ (env : PipelineEnv) (history : List String) (t : String)
      (resp : LlmResponse),
      env.llmCorrectEnabled = true →
      env.llmCorrect = llmCorrectorStage history resp →
      (∃ c hist2, llmCorrector history t resp = .ok (c, hist2)) →
      ∀ c2 hist2, llmCorrector history t resp = .ok (c2, hist2) →
      processAndTypeTranscript env t =
        processAndTypeTranscript { env with llmCorrectEnabled := false } c2) := by
  refine ⟨?_, ?_, ?_⟩
  · intro history t
    unfold llmCorrector
    by_cases h : pyStrip t = "" <;> simp [h]
  · intro history t body hext
    unfold llmCorrector
    by_cases h : pyStrip t = ""
    · simp [h]
    · rcases hext with he | he <;> simp [h, he]
  · intro env history t resp hen hstage hex c2 hist2 hok
    unfold processAndTypeTranscript
    rw [hen, hstage]
    have hs : llmCorrectorStage history resp t = .ok c2 := by
      unfold llmCorrectorStage
      rw [hok]
    rw [hs]
    rfl

/-- Witness for `corrector_fallback_continues_pipeline` at concrete
inputs: request failure and an empty choices array both fall back, and
after the fallback the pipeline output equals the correction-disabled
output. -/
theorem corrector_fallback_continues_pipeline_witness :
    llmCorrector ["prev"] "hi" .requestError = .ok ("hi", ["prev"]) ∧
    llmCorrector ["prev"] "hi" (.success (.obj [("choices", .arr [])]))
      = .ok ("hi", ["prev"]) ∧
    processAndTypeTranscript
      { explodingPipelineEnv with
          llmCorrectEnabled := true
          processTranscript := fun u => .ok u
          llmCorrect := llmCorrectorStage ["prev"] .requestError } "hi"
      = processAndTypeTranscript
      { explodingPipelineEnv with
          llmCorrectEnabled := false
          processTranscript := fun u => .ok u
          llmCorrect := llmCorrectorStage ["prev"] .requestError } "hi" := by
  refine ⟨?_, ?_, ?_⟩
  · exact corrector_fallback_continues_pipeline.1 ["prev"] "hi"
  · exact corrector_fallback_continues_pipeline.2.1 ["prev"] "hi" _
      (Or.inr rfl)
  · exact corrector_fallback_continues_pipeline.2.2 _ ["prev"] "hi"
      .requestError rfl rfl ⟨"hi", ["prev"], rfl⟩ "hi" ["prev"] rfl

/-- C10: the bounded correction history is mutated only by a successful
correction call: whenever the corrector returns normally, either the
history is exactly unchanged and the input transcript is returned
(whitespace-only input, request failure, or caught extraction failure),
or the call succeeded and the history is exactly the ring-buffer push
of the corrected transcript; and a whitespace-only transcript is
returned unchanged with untouched history for every provider response
(the provider is never consulted). -/
theorem corrector_history_only_on_success :
    (∀ (history : List String) (t : String) (resp : LlmResponse)
      (c : String) (hist2 : List String),
      llmCorrector history t resp = .ok (c, hist2) →
      (hist2 = history ∧ c = t) ∨
      (∃ body, resp = .success body ∧ extractContent body = .ok c ∧
        hist2 = pushHistory history c ∧ ¬ pyStrip t = "")) ∧
    (∀ (history : List String) (t : String), pyStrip t = "" →
      ∀ resp, llmCorrector history t resp = .ok (t, history)) := by
  constructor
  · intro history t resp c hist2 hok
    by_cases h : pyStrip t = ""
    · simp only [llmCorrector, if_pos h] at hok
      cases hok
      exact Or.inl ⟨rfl, rfl⟩
    · cases resp with
      | requestError =>
        simp only [llmCorrector, if_neg h] at hok
        cases hok
        exact Or.inl ⟨rfl, rfl⟩
      | success body =>
        cases hext : extractContent body with
        | ok corrected =>
          simp only [llmCorrector, if_neg h, hext] at hok
          cases hok
          exact Or.inr ⟨body, rfl, hext, rfl, h⟩
        | error e =>
          cases e with
          | keyError =>
            simp only [llmCorrector, if_neg h, hext] at hok
            cases hok
            exact Or.inl ⟨rfl, rfl⟩
          | indexError =>
            simp only [llmCorrector, if_neg h, hext] at hok
            cases hok
            exact Or.inl ⟨rfl, rfl⟩
          | typeError =>
            simp only [llmCorrector, if_neg h, hext] at hok
            cases hok
          | attributeError =>
            simp only [llmCorrector, if_neg h, hext] at hok
            cases hok
  · intro history t h resp
    unfold llmCorrector
    rw [if_pos h]

/-- Witness for `corrector_history_only_on_success`: a concrete
successful correction pushes the history; a whitespace-only transcript
leaves it untouched for an arbitrary response. -/
theorem corrector_history_only_on_success_witness :
    ((["old", "fixed"] : List String) = ["old"] ∧ ("fixed" : String) = "hi") ∨
    (∃ body, (LlmResponse.success (.obj [("choices",
        .arr [.obj [("message", .obj [("content", .str " fixed ")])]])]))
        = .success body ∧
      extractContent body = .ok "fixed" ∧
      (["old", "fixed"] : List String) = pushHistory ["old"] "fixed" ∧
      ¬ pyStrip "hi" = "") := by
  exact corrector_history_only_on_success.1 ["old"] "hi"
    (.success (.obj [("choices",
      .arr [.obj [("message", .obj [("content", .str " fixed ")])]])]))
    "fixed" ["old", "fixed"] rfl

/-! ## Single-instance lock (`single_instance.py`)

`os.path.abspath` and the module-origin resolution of
`importlib.util.find_spec` are OS state, supplied as an environment;
boot signatures (floats compared within a ±1.0 tolerance) are modelled
as integers, keeping the tolerance comparison. The world holds the lock-file state, the process table at
verification time, and the owner's status timeline after the
termination request (`_wait_for_exit` polls it until the deadline). -/

/-- Filesystem/import services used by `_canonical_entry` and
`_commands_equivalent`. -/
structure OsEnv where
  abspath : String → String
  moduleOrigin : String → Option String

/-- `entry.endswith(".py")`, computed on the character data. -/
def pyEndsWithPy (entry : String) : Bool :=
  ['.', 'p', 'y'].isSuffixOf entry.data

/-- `_canonical_entry`: `python -m module` resolves the module origin
(falling back to the module name); a `.py` entry is made absolute;
anything else (including a bare `-m` with no module) has no canonical
entry. -/
def canonicalEntry (env : OsEnv) : List String → Option String
  | _ :: "-m" :: module :: _ =>
    match env.moduleOrigin module with
    | some origin => some (env.abspath origin)
    | none => some module
  | _ :: entry :: _ =>
    if pyEndsWithPy entry then some (env.abspath entry) else none
  | _ => none

/-- `_commands_equivalent`: exact equality, or same absolute executable
and the same non-empty canonical entry. -/
def commandsEquivalent (env : OsEnv) (expected actual : List String) : Bool :=
  if expected = actual then true
  else
    match expected, actual with
    | e0 :: _, a0 :: _ =>
      let expectedExe := if e0 = "" then "" else env.abspath e0
      let actualExe := if a0 = "" then "" else env.abspath a0
      if ¬ expectedExe = actualExe then false
      else
        match canonicalEntry env expected, canonicalEntry env actual with
        | some x, some y =>
          if ¬ x = "" ∧ ¬ y = "" ∧ x = y then true else false
        | _, _ => false
    | _, _ => false

/-- What `psutil` reports about one process: `none` components model
`psutil.Error` being raised by `cmdline()` / `status()`. -/
structure ProcInfo where
  cmdline : Option (List String)
  status : Option String

/-- A parsed lock record (`owner.get("pid")`,
`owner.get("boot_time", 0.0)`, `owner.get("cmdline", [])`). -/
structure LockRecord where
  pid : Option Int
  bootTime : Int
  cmdline : List String

/-- The lock file as `acquire` finds it: missing, unreadable-or-empty
(`_read_owner` returns a falsy value), or a parsed record. -/
inductive LockFileState
  | absent
  | unreadableOrEmpty
  | record (r : LockRecord)

/-- `_process_matches`: an absent or non-positive PID, a failed process
lookup, or a failed `status()` read never match; the command-line
comparison is performed only when both the recorded and the actual
command line are non-empty. -/
def processMatches (env : OsEnv) (procs : Int → Option ProcInfo)
    (pid : Option Int) (expectedCmd : List String) : Bool :=
  match pid with
  | none => false
  | some p =>
    if p ≤ 0 then false
    else
      match procs p with
      | none => false
      | some info =>
        let actualCmd := info.cmdline.getD []
        if ¬ expectedCmd = [] ∧ ¬ actualCmd = [] ∧
            commandsEquivalent env expectedCmd actualCmd = false then false
        else info.status.isSome

/-- `_same_boot`: equal within a tolerance of 1.0. -/
def sameBoot (owner current : Int) : Bool := |owner - current| ≤ 1

/-- `_wait_for_exit`: `statusAt k` is the owner's observable state at
the k-th poll (`none` = `psutil.Process`/`status()` raised, process
gone); `budget` is the number of polls the deadline still allows.
`true` = the process was observed gone or zombie; `false` = the
deadline elapsed first and `SingleInstanceError` is raised. -/
def waitForExit (statusAt : Nat → Option String) : Nat → Nat → Bool
  | 0, _ => false
  | budget + 1, k =>
    match statusAt k with
    | none => true
    | some st => if st = "zombie" then true else waitForExit statusAt budget (k + 1)

/-- The environment one `acquire()` call runs against. -/
structure LockWorld where
  file : LockFileState
  procs : Int → Option ProcInfo
  currentBoot : Int
  statusAt : Nat → Option String
  pollBudget : Nat

/-- Observable outcome of `acquire()`: whether it returned normally
(vs. raising `SingleInstanceError`), whether `_terminate` was invoked,
and whether `_cleanup_stale` removed an existing record. -/
structure AcquireOutcome where
  acquired : Bool
  terminateRequested : Bool
  staleRemoved : Bool
deriving DecidableEq, Repr

/-- `PidFileLock.acquire` in a single-process world (no other process
races for the file, so after `_cleanup_stale` the exclusive create of
the next loop iteration succeeds): an absent file is created at once;
an unreadable/empty record is removed; a record with a truthy boot
signature that mismatches the current one, or whose process fails
`_process_matches`, is stale — removed without termination; otherwise
the owner is terminated and awaited until seen gone or zombie
(success) or until the deadline (`SingleInstanceError`). -/
def acquire (env : OsEnv) (w : LockWorld) : AcquireOutcome :=
  match w.file with
  | .absent => ⟨true, false, false⟩
  | .unreadableOrEmpty => ⟨true, false, true⟩
  | .record r =>
    if ¬ r.bootTime = 0 ∧ sameBoot r.bootTime w.currentBoot = false then
      ⟨true, false, true⟩
    else if processMatches env w.procs r.pid r.cmdline = false then
      ⟨true, false, true⟩
    else if waitForExit w.statusAt w.pollBudget 0 then ⟨true, true, true⟩
    else ⟨false, true, false⟩

/-- The owner process was observed gone or zombie at poll `k`. -/
def exitedAt (statusAt : Nat → Option String) (k : Nat) : Prop :=
  statusAt k = none ∨ statusAt k = some "zombie"

theorem waitForExit_iff (statusAt : Nat → Option String) :
    ∀ budget start : Nat,
      waitForExit statusAt budget start = true ↔
      ∃ k, start ≤ k ∧ k < start + budget ∧ exitedAt statusAt k := by
  intro budget
  induction budget with
  | zero =>
    intro start
    unfold waitForExit
    constructor
    · intro h
      cases h
    · rintro ⟨k, h1, h2, -⟩
      omega
  | succ n ih =>
    intro start
    unfold waitForExit
    cases hst : statusAt start with
    | none =>
      constructor
      · intro _
        exact ⟨start, le_rfl, by omega, Or.inl hst⟩
      · intro _
        rfl
    | some st =>
      by_cases hz : st = "zombie"
      · subst hz
        constructor
        · intro _
          exact ⟨start, le_rfl, by omega, Or.inr hst⟩
        · intro _
          simp
      · simp only [if_neg hz]
        rw [ih (start + 1)]
        constructor
        · rintro ⟨k, h1, h2, h3⟩
          exact ⟨k, by omega, by omega, h3⟩
        · rintro ⟨k, h1, h2, h3⟩
          refine ⟨k, ?_, by omega, h3⟩
          rcases Nat.eq_or_lt_of_le h1 with rfl | hlt
          · exfalso
            rcases h3 with hgone | hzom
            · rw [hst] at hgone
              cases hgone
            · rw [hst] at hzom
              cases hzom
              exact hz rfl
          · omega

/-- Identity OS services: absolute paths returned unchanged, no module
resolution. -/
def idOsEnv : OsEnv := { abspath := fun s => s, moduleOrigin := fun _ => none }

/-- A lock record with an empty recorded command line owned by a live
process with a non-empty command line and the same boot session. -/
def emptyCmdWorld : LockWorld :=
  { file := .record { pid := some 42, bootTime := 100, cmdline := [] },
    procs := fun p =>
      if p = 42 then
        some { cmdline := some ["/usr/bin/python", "wkey.py"],
               status := some "running" }
      else none,
    currentBoot := 100,
    statusAt := fun _ => none,
    pollBudget := 1 }

/-- The owner record of `zeroBootWorld`. -/
def zeroBootRecord : LockRecord :=
  { pid := some 11, bootTime := 0, cmdline := ["/usr/bin/python", "wkey.py"] }

/-- A lock record with boot signature 0.0 (the value `_boot_signature`
returns when `psutil.boot_time()` fails) in a world whose current boot
signature is far away, owned by a live matching process. -/
def zeroBootWorld : LockWorld :=
  { file := .record zeroBootRecord,
    procs := fun p =>
      if p = 11 then some ⟨some ["/usr/bin/python", "wkey.py"], some "running"⟩
      else none,
    currentBoot := 5000,
    statusAt := fun _ => none,
    pollBudget := 1 }

/-- C3 counterexample: (a) the recorded command line `[]` is NOT
equivalent to the running process's command line, yet `acquire()`
requests termination anyway — `_process_matches` skips the command-line
comparison when either side is empty; (b) a recorded boot signature of
0.0 mismatches the current signature beyond any tolerance, yet the
falsy-boot guard (`if owner_boot and ...`) skips the staleness check
and `acquire()` requests termination. Both refute "such records are
removed without attempting termination" as stated. -/
theorem acquire_terminates_despite_inequivalent_cmdline :
    commandsEquivalent idOsEnv [] ["/usr/bin/python", "wkey.py"] = false ∧
    (acquire idOsEnv emptyCmdWorld).terminateRequested = true ∧
    sameBoot zeroBootRecord.bootTime zeroBootWorld.currentBoot = false ∧
    (acquire idOsEnv zeroBootWorld).terminateRequested = true := by
  refine ⟨rfl, rfl, rfl, rfl⟩

/-- C3 (amended): an unreadable or empty lock record is removed and
`acquire()` succeeds without attempting termination; likewise for a
record whose boot signature is truthy (nonzero) and mismatches the
current one beyond the tolerance, or whose process fails verification
(`_process_matches` false). When the record passes both checks (a live
process whose status is readable and whose command line is not
checkably different), `acquire()` requests termination and succeeds
exactly when the PID is observed gone or zombie within the poll
deadline, raising the dedicated takeover-timeout error
(`SingleInstanceError`) otherwise. A dead PID never matches, and a
recorded command line that is non-empty, faced with a non-empty actual
command line that is not equivalent to it, never matches. -/
theorem acquire_takeover_characterization (env : OsEnv) (w : LockWorld) :
    (w.file = .unreadableOrEmpty → acquire env w = ⟨true, false, true⟩) ∧
    (∀ r, w.file = .record r →
      ((¬ r.bootTime = 0 ∧ sameBoot r.bootTime w.currentBoot = false) ∨
        processMatches env w.procs r.pid r.cmdline = false) →
      acquire env w = ⟨true, false, true⟩) ∧
    (∀ r, w.file = .record r →
      ¬ (¬ r.bootTime = 0 ∧ sameBoot r.bootTime w.currentBoot = false) →
      processMatches env w.procs r.pid r.cmdline = true →
      (acquire env w).terminateRequested = true ∧
      ((acquire env w).acquired = true ↔
        ∃ k, k < w.pollBudget ∧ exitedAt w.statusAt k)) ∧
    (∀ (p : Int) (expected : List String), 0 < p → w.procs p = none →
      processMatches env w.procs (some p) expected = false) ∧
    (∀ (p : Int) (info : ProcInfo) (expected : List String), 0 < p →
      w.procs p = some info → ¬ expected = [] → ¬ info.cmdline.getD [] = [] →
      commandsEquivalent env expected (info.cmdline.getD []) = false →
      processMatches env w.procs (some p) expected = false) := by
  refine ⟨?_, ?_, ?_, ?_, ?_⟩
  · intro h
    simp only [acquire, h]
  · intro r hf hreason
    simp only [acquire, hf]
    rcases hreason with hb | hm
    · rw [if_pos hb]
    · by_cases hb2 : (¬ r.bootTime = 0 ∧ sameBoot r.bootTime w.currentBoot = false)
      · rw [if_pos hb2]
      · rw [if_neg hb2, if_pos hm]
  · intro r hf hb hm
    simp only [acquire, hf]
    rw [if_neg hb]
    have hnm : ¬ processMatches env w.procs r.pid r.cmdline = false := by
      rw [hm]
      simp
    rw [if_neg hnm]
    by_cases hw : waitForExit w.statusAt w.pollBudget 0 = true
    · rw [if_pos hw]
      refine ⟨rfl, ?_⟩
      constructor
      · intro _
        obtain ⟨k, -, h2, h3⟩ := (waitForExit_iff w.statusAt w.pollBudget 0).mp hw
        exact ⟨k, by omega, h3⟩
      · intro _
        rfl
    · rw [if_neg hw]
      refine ⟨rfl, ?_⟩
      constructor
      · intro h
        cases h
      · rintro ⟨k, hk, h3⟩
        exact absurd ((waitForExit_iff w.statusAt w.pollBudget 0).mpr
          ⟨k, by omega, by omega, h3⟩) hw
  · intro p expected hp hnone
    simp only [processMatches]
    rw [if_neg (by omega), hnone]
  · intro p info expected hp hsome hexp hact hneq
    simp only [processMatches]
    rw [if_neg (by omega), hsome]
    simp only [if_pos (And.intro hexp (And.intro hact hneq))]

/-- The record written by a previous live instance. -/
def liveOwnerRecord : LockRecord :=
  { pid := some 7, bootTime := 50, cmdline := ["/usr/bin/python", "tray.py"] }

/-- A lock record naming a live process with the identical command
line; the owner survives the first poll and is a zombie at the second. -/
def liveOwnerWorld : LockWorld :=
  { file := .record liveOwnerRecord,
    procs := fun p =>
      if p = 7 then some ⟨some ["/usr/bin/python", "tray.py"], some "running"⟩
      else none,
    currentBoot := 50,
    statusAt := fun k => if k = 0 then some "running" else some "zombie",
    pollBudget := 3 }

/-- A record whose PID has no process behind it. -/
def deadOwnerRecord : LockRecord :=
  { pid := some 9, bootTime := 50, cmdline := ["/usr/bin/python", "tray.py"] }

/-- A lock record naming a PID with no process behind it. -/
def deadOwnerWorld : LockWorld :=
  { file := .record deadOwnerRecord,
    procs := fun _ => none,
    currentBoot := 50,
    statusAt := fun _ => none,
    pollBudget := 1 }

/-- Witness for `acquire_takeover_characterization`: the live matching
owner is terminated and the lock is acquired once the owner turns
zombie; the dead-PID record is removed and acquired without
termination. -/
theorem acquire_takeover_characterization_witness :
    (acquire idOsEnv liveOwnerWorld).terminateRequested = true ∧
    (acquire idOsEnv liveOwnerWorld).acquired = true ∧
    acquire idOsEnv deadOwnerWorld = ⟨true, false, true⟩ := by
  have hl := acquire_takeover_characterization idOsEnv liveOwnerWorld
  have h3 := hl.2.2.1 liveOwnerRecord rfl (by decide) (by rfl)
  have hd := acquire_takeover_characterization idOsEnv deadOwnerWorld
  have h2 := hd.2.1 deadOwnerRecord rfl (Or.inr rfl)
  exact ⟨h3.1, h3.2.mpr ⟨1, by decide, Or.inr rfl⟩, h2⟩

end Wkey
